import Mathlib

/-!
Shallow embedding of the BraTS data module (`src/data_module.py`) of the
repository `BraTS-SwinUNETR-3D-Segmentation`, together with proofs of the
behavioural properties of its dataset-indexing logic.

The filesystem is modelled as a value (`FS`): the listing of the immediate
children of the data root, a directory predicate and a file-existence
predicate, both on full path strings.  Paths are plain strings, built with a
model of POSIX `os.path.join`; the two-argument join used by the code is
modelled exactly (absolute second argument, empty or slash-terminated first
argument, and the ordinary separator-inserting case).
-/

namespace BraTS

/-- Does the string start with the character '/'?  Used by the model of
`os.path.join` (`posixpath.join` tests `b.startswith(sep)`). -/
def startsWithSlash (s : String) : Bool :=
  match s.data with
  | [] => false
  | c :: _ => c == '/'

/-- Does the string end with the character '/'?  Used by the model of
`os.path.join` (`posixpath.join` tests `path.endswith(sep)`). -/
def endsWithSlash (s : String) : Bool :=
  match s.data.reverse with
  | [] => false
  | c :: _ => c == '/'

/-- Does the string start with the character '.'?  Python's `glob` does not
match directory entries whose name begins with a dot when the pattern
component is a bare star. -/
def startsWithDot (s : String) : Bool :=
  match s.data with
  | [] => false
  | c :: _ => c == '.'

/-- True when the string contains no '/' character (e.g. a directory entry
name). -/
def noSlash (s : String) : Bool := s.data.all (fun c => c != '/')

/-- Model of the two-argument POSIX `os.path.join(a, b)`: if `b` is absolute
the result is `b`; if `a` is empty or already ends with the separator the
result is `a ++ b`; otherwise a single separator is inserted. -/
def osPathJoin (a b : String) : String :=
  if startsWithSlash b then b
  else if a = "" ∨ endsWithSlash a = true then a ++ b
  else a ++ "/" ++ b

/-- Model of POSIX `os.path.basename`: the characters after the last '/'
(the whole string when there is no '/'). -/
def osBasename (s : String) : String :=
  String.mk ((s.data.reverse.takeWhile (fun c => c != '/')).reverse)

/-- Proof-side helper (not part of the source): the characters strictly
before the last '/' of a string, i.e. POSIX `os.path.dirname` without its
trailing-separator special cases.  Only used to establish injectivity of the
path constructions. -/
def dropLastComp (s : String) : String :=
  String.mk (((s.data.reverse.dropWhile (fun c => c != '/')).tail).reverse)

/-- Lexicographic comparison of character lists by code point, the order
Python's `sorted` uses on strings. -/
def lexLe : List Char → List Char → Bool
  | [], _ => true
  | _ :: _, [] => false
  | a :: as, b :: bs => if a < b then true else if b < a then false else lexLe as bs

/-- Lexicographic string comparison by code point; proved below to agree
with the linear order on `String`. -/
def strLe (a b : String) : Bool := lexLe a.data b.data

/-- The filesystem as seen by `BraTSDataModule.setup`: the listing of the
immediate children of the data root (entry names, not full paths), a
directory test and an existence test, both taking full path strings.  The
data root is assumed to contain no glob metacharacters, so the pattern
`os.path.join(data_dir, "*")` matches exactly the non-hidden immediate
children. -/
structure FS where
  rootEntries : List String
  isDir : String → Bool
  pathExists : String → Bool

/-- Model of `glob.glob(os.path.join(data_dir, "*"))`: every immediate child
of the root whose name does not start with a dot, returned as the join of
the root with the entry name (`data_module.py` lines 39-40). -/
def globStar (fs : FS) (dir : String) : List String :=
  (fs.rootEntries.filter (fun n => !startsWithDot n)).map (osPathJoin dir)

/-- Model of `patient_dirs = sorted(glob.glob(search_path))` followed by the
directory filter (`data_module.py` lines 40-43).  Python's `sorted` on
strings is the lexicographic order on code points, which is the linear order
on `String`; `sorted` is stable and `String` equality is discrete, so any
sorting algorithm computes the same list. -/
def patientDirs (fs : FS) (dir : String) : List String :=
  (List.insertionSort (fun a b => strLe a b = true) (globStar fs dir)).filter fs.isDir

/-- A patient record as assembled by the loop body of `setup`
(`data_module.py` lines 63-66): the ordered four-element modality path list
and the label path. -/
structure PatientRecord where
  image : List String
  label : String
deriving DecidableEq

/-- Path of one per-patient file: the patient directory joined with the
patient id (the directory's base name) followed by a fixed filename tail
(`data_module.py` lines 51-59). -/
def patFile (patPath tag : String) : String :=
  osPathJoin patPath (osBasename patPath ++ tag)

/-- The T1 (native) modality path, `{pat_id}-t1n.nii.gz`. -/
def t1Path (p : String) : String := patFile p ("-t1n.nii.gz")

/-- The T1 contrast-enhanced modality path, `{pat_id}-t1c.nii.gz`. -/
def t1cePath (p : String) : String := patFile p ("-t1c.nii.gz")

/-- The T2 modality path, `{pat_id}-t2w.nii.gz`. -/
def t2Path (p : String) : String := patFile p ("-t2w.nii.gz")

/-- The FLAIR modality path, `{pat_id}-t2f.nii.gz`. -/
def flairPath (p : String) : String := patFile p ("-t2f.nii.gz")

/-- The segmentation label path, `{pat_id}-seg.nii.gz`. -/
def segPath (p : String) : String := patFile p ("-seg.nii.gz")

/-- The record built for one patient directory (`data_module.py` lines
63-66): the modality list in the fixed order T1, T1ce, T2, FLAIR, plus the
label path. -/
def mkRecord (p : String) : PatientRecord :=
  { image := [t1Path p, t1cePath p, t2Path p, flairPath p], label := segPath p }

/-- The `data_list` computed by the scan loop (`data_module.py` lines
48-66): one record per patient directory whose T1 file and label file both
exist; every other directory is silently skipped. -/
def dataListOf (fs : FS) (dir : String) : List PatientRecord :=
  (patientDirs fs dir).filterMap (fun p =>
    if fs.pathExists (t1Path p) && fs.pathExists (segPath p) then some (mkRecord p) else none)

/-- The two exceptions `setup` can raise: the explicit `FileNotFoundError`
of line 46 and the `ValueError` raised by scikit-learn's
`train_test_split` when the requested split would leave the train set empty. -/
inductive SetupError where
  | fileNotFound
  | valueError
deriving DecidableEq

/-- A deterministic linear congruential step, used as the stand-in random
stream for the shuffle of the split. -/
def lcgNext (s : Nat) : Nat :=
  (s * 75 + 74) % 65537

/-- Remove the element at the given position of a list, returning it
together with the remaining list; `none` when the position is out of
range. -/
def extractIdx : Nat → List Nat → Option (Nat × List Nat)
  | _, [] => none
  | 0, a :: t => some (a, t)
  | n + 1, a :: t =>
    match extractIdx n t with
    | none => none
    | some (x, r) => some (x, a :: r)

/-- Fuelled selection shuffle: repeatedly extract the element at a
pseudo-random position.  The fuel only bounds the recursion; with fuel at
least the length the whole list is shuffled, and the result is a permutation
of the input for every fuel. -/
def shuffleSel : Nat → Nat → List Nat → List Nat
  | 0, _, l => l
  | _ + 1, _, [] => []
  | fuel + 1, s, a :: t =>
    let s2 := lcgNext s
    match extractIdx (s2 % (a :: t).length) (a :: t) with
    | some (x, r) => x :: shuffleSel fuel s2 r
    | none => a :: t

/-- Modelled stand-in for `numpy.random.RandomState(seed).permutation(n)` as
used by scikit-learn's `ShuffleSplit`: a deterministic, seed-dependent
permutation of `0, …, n-1`.  No property proved below depends on the exact
values of the numpy stream, only on the result being a permutation that is a
function of the seed and `n` alone. -/
def npPermutation (seed n : Nat) : List Nat :=
  shuffleSel n (lcgNext seed) (List.range n)

/-- The test-fold size chosen by scikit-learn's `_validate_shuffle_split`
for a float `test_size`: `ceil(test_size * n)`.  With `test_size = 0.2` the
double-precision product `float(0.2) * n` rounds to the real value `n / 5`
whenever `n / 5` is an integer and is otherwise strictly between the
neighbouring integers, so its ceiling equals the exact `⌈n / 5⌉` computed
here in integer arithmetic. -/
def nTestOf (n : Nat) : Nat := (n + 4) / 5

/-- Select the elements of `l` at the given positions, in order. -/
def pickIdx {α : Type} (l : List α) (idxs : List Nat) : List α :=
  idxs.filterMap (fun i => l[i]?)

/-- Model of `sklearn.model_selection.train_test_split(data, test_size=0.2,
random_state=seed)` for a single list: compute the fold sizes
(`n_test = ceil(0.2 * n)`, `n_train = n - n_test`), raise `ValueError` when
the train fold would be empty, otherwise shuffle the indices with the
seeded generator and return the train fold followed by the test fold. -/
def train_test_split {α : Type} (l : List α) (seed : Nat) :
    Except SetupError (List α × List α) :=
  if l.length - nTestOf l.length = 0 then .error .valueError
  else
    .ok (pickIdx l ((npPermutation seed l.length).drop (nTestOf l.length)),
         pickIdx l ((npPermutation seed l.length).take (nTestOf l.length)))

/-- The Lightning data module state: construction-time configuration plus
the two record lists, which the constructor initialises to empty
(`data_module.py` lines 24-31).  The float `cache_rate` is carried as a
rational; it is only stored and passed through, never computed with. -/
structure BraTSDataModule where
  data_dir : String
  batch_size : Nat
  num_workers : Nat
  cache_rate : Rat
  train_files : List PatientRecord
  val_files : List PatientRecord
deriving DecidableEq

/-- Model of `BraTSDataModule.__init__`: store the configuration and start
with empty train and validation lists. -/
def mkBraTSDataModule (data_dir : String) (batch_size : Nat) (num_workers : Nat)
    (cache_rate : Rat) : BraTSDataModule :=
  { data_dir := data_dir, batch_size := batch_size, num_workers := num_workers,
    cache_rate := cache_rate, train_files := [], val_files := [] }

/-- The pure result of the body of `setup` (`data_module.py` lines 39-73):
scan, raise `FileNotFoundError` when no subdirectory was found, build the
record list, and split it 80/20 with seed 42. -/
def setupResult (fs : FS) (dir : String) :
    Except SetupError (List PatientRecord × List PatientRecord) :=
  if (patientDirs fs dir).length = 0 then .error .fileNotFound
  else train_test_split (dataListOf fs dir) 42

/-- Model of `BraTSDataModule.setup`: on success the two record-list fields
are assigned; when an exception is raised nothing has been assigned, so the
module keeps its previous field values and the error is reported alongside
it. -/
def BraTSDataModule.setup (fs : FS) (m : BraTSDataModule) :
    BraTSDataModule × Option SetupError :=
  match setupResult fs m.data_dir with
  | .error e => (m, some e)
  | .ok (tr, va) => ({ m with train_files := tr, val_files := va }, none)

/-- Modelled from the spec: the transform pipeline of `src/transforms.py` is
not part of the provided sources; the spec treats it as an out-of-scope
collaborator that converts file paths into tensors.  It is represented as an
opaque tag recording which pipeline was requested. -/
inductive TransformKind where
  | trainTf (roi : Nat × Nat × Nat)
  | valTf
deriving DecidableEq

/-- Modelled from the spec: `get_train_transforms(roi_size=…)` of the
missing `src/transforms.py`, represented by its tag. -/
def get_train_transforms (roi : Nat × Nat × Nat) : TransformKind := .trainTf roi

/-- Modelled from the spec: `get_val_transforms()` of the missing
`src/transforms.py`, represented by its tag. -/
def get_val_transforms : TransformKind := .valTf

/-- The arguments with which `setup`'s collaborators build a MONAI
`CacheDataset` (`data_module.py` lines 87-92 and 108-113). -/
structure CacheDataset where
  data : List PatientRecord
  transform : TransformKind
  cache_rate : Rat
  num_workers : Nat
deriving DecidableEq

/-- The arguments with which a MONAI `DataLoader` is built
(`data_module.py` lines 94-100 and 115-120).  `pin_memory` defaults to
`false` when the call site does not pass it. -/
structure DataLoader where
  dataset : CacheDataset
  batch_size : Nat
  shuffle : Bool
  num_workers : Nat
  pin_memory : Bool
deriving DecidableEq

/-- Model of `BraTSDataModule.train_dataloader` (`data_module.py` lines
76-100): the arguments of the loader construction — a cached dataset over
`train_files` with the training transforms, loaded with the configured
batch size, shuffling enabled and pinned memory.  The construction itself,
which can raise at sampler creation, is modelled by `buildDataLoader`. -/
def BraTSDataModule.train_dataloader (m : BraTSDataModule) : DataLoader :=
  { dataset := { data := m.train_files, transform := get_train_transforms (64, 64, 64),
                 cache_rate := m.cache_rate, num_workers := m.num_workers },
    batch_size := m.batch_size, shuffle := true, num_workers := m.num_workers,
    pin_memory := true }

/-- Model of `BraTSDataModule.val_dataloader` (`data_module.py` lines
102-120): the arguments of the loader construction — a cached dataset over
`val_files` with the validation transforms, loaded with batch size 1 and no
shuffling.  The construction itself is modelled by `buildDataLoader`. -/
def BraTSDataModule.val_dataloader (m : BraTSDataModule) : DataLoader :=
  { dataset := { data := m.val_files, transform := get_val_transforms,
                 cache_rate := m.cache_rate, num_workers := m.num_workers },
    batch_size := 1, shuffle := false, num_workers := m.num_workers,
    pin_memory := false }

/-- Model of constructing a torch/MONAI `DataLoader` from its arguments.
With `shuffle=True` the constructor instantiates a `RandomSampler` over the
dataset, whose initialiser raises `ValueError` when the dataset is empty
(`num_samples` must be positive); with `shuffle=False` it uses a
`SequentialSampler`, which accepts an empty dataset, and no other argument
is validated at construction time. -/
def buildDataLoader (dl : DataLoader) : Except SetupError DataLoader :=
  if dl.shuffle && dl.dataset.data.isEmpty then .error .valueError
  else .ok dl

/-! Concrete filesystems and modules used as worked examples for the
claims. -/

/-- A freshly constructed module over the data root named d. -/
def mEx : BraTSDataModule := mkBraTSDataModule ("d") 1 4 1

/-- A second fresh module over the same data root with different loader
configuration. -/
def mEx2 : BraTSDataModule := mkBraTSDataModule ("d") 2 8 ((1 : Rat) / 2)

/-- A root with no entries at all. -/
def fsEmpty : FS :=
  { rootEntries := [], isDir := fun _ => true, pathExists := fun _ => false }

/-- A root with a single patient directory containing no files. -/
def fsOneInvalid : FS :=
  { rootEntries := ["patient"], isDir := fun _ => true, pathExists := fun _ => false }

/-- A root whose only entry is a hidden directory. -/
def fsHidden : FS :=
  { rootEntries := [".hidden"], isDir := fun _ => true, pathExists := fun _ => false }

/-- The scenario of the spec: two patient folders, the first with all five
files, the second missing its segmentation label. -/
def fsScenario : FS :=
  { rootEntries := ["BraTS-GLI-00001", "BraTS-GLI-00002"],
    isDir := fun _ => true,
    pathExists := fun q => q ∈ [
      "d/BraTS-GLI-00001/BraTS-GLI-00001-t1n.nii.gz",
      "d/BraTS-GLI-00001/BraTS-GLI-00001-t1c.nii.gz",
      "d/BraTS-GLI-00001/BraTS-GLI-00001-t2w.nii.gz",
      "d/BraTS-GLI-00001/BraTS-GLI-00001-t2f.nii.gz",
      "d/BraTS-GLI-00001/BraTS-GLI-00001-seg.nii.gz",
      "d/BraTS-GLI-00002/BraTS-GLI-00002-t1n.nii.gz",
      "d/BraTS-GLI-00002/BraTS-GLI-00002-t1c.nii.gz",
      "d/BraTS-GLI-00002/BraTS-GLI-00002-t2w.nii.gz",
      "d/BraTS-GLI-00002/BraTS-GLI-00002-t2f.nii.gz"] }

/-- Two complete patient folders. -/
def fsTwoValid : FS :=
  { rootEntries := ["BraTS-GLI-00001", "BraTS-GLI-00002"],
    isDir := fun _ => true,
    pathExists := fun q => q ∈ [
      "d/BraTS-GLI-00001/BraTS-GLI-00001-t1n.nii.gz",
      "d/BraTS-GLI-00001/BraTS-GLI-00001-t1c.nii.gz",
      "d/BraTS-GLI-00001/BraTS-GLI-00001-t2w.nii.gz",
      "d/BraTS-GLI-00001/BraTS-GLI-00001-t2f.nii.gz",
      "d/BraTS-GLI-00001/BraTS-GLI-00001-seg.nii.gz",
      "d/BraTS-GLI-00002/BraTS-GLI-00002-t1n.nii.gz",
      "d/BraTS-GLI-00002/BraTS-GLI-00002-t1c.nii.gz",
      "d/BraTS-GLI-00002/BraTS-GLI-00002-t2w.nii.gz",
      "d/BraTS-GLI-00002/BraTS-GLI-00002-t2f.nii.gz",
      "d/BraTS-GLI-00002/BraTS-GLI-00002-seg.nii.gz"] }

/-- The same root as `fsTwoValid` with the first patient's T1 file removed. -/
def fsDropT1 : FS :=
  { rootEntries := fsTwoValid.rootEntries,
    isDir := fsTwoValid.isDir,
    pathExists := fun q =>
      if q = t1Path (osPathJoin ("d") ("BraTS-GLI-00001")) then false
      else fsTwoValid.pathExists q }

/-! Permutation facts about the modelled split. -/

theorem extractIdx_isSome {i : Nat} {l : List Nat} (h : i < l.length) :
    ∃ x r, extractIdx i l = some (x, r) := by
  induction l generalizing i with
  | nil => simp at h
  | cons a t ih =>
    cases i with
    | zero => exact ⟨a, t, rfl⟩
    | succ n =>
      obtain ⟨x, r, hx⟩ := ih (by simpa using h)
      exact ⟨x, a :: r, by simp [extractIdx, hx]⟩

theorem extractIdx_perm {i : Nat} {l : List Nat} {x : Nat} {r : List Nat}
    (h : extractIdx i l = some (x, r)) : l.Perm (x :: r) := by
  induction l generalizing i r with
  | nil => simp [extractIdx] at h
  | cons a t ih =>
    cases i with
    | zero =>
      simp only [extractIdx, Option.some.injEq, Prod.mk.injEq] at h
      rw [← h.1, ← h.2]
    | succ n =>
      cases he : extractIdx n t with
      | none => simp [extractIdx, he] at h
      | some pr =>
        obtain ⟨y, s⟩ := pr
        simp only [extractIdx, he, Option.some.injEq, Prod.mk.injEq] at h
        obtain ⟨h1, h2⟩ := h
        subst h1
        subst h2
        exact ((ih he).cons a).trans (List.Perm.swap y a s)

theorem shuffleSel_perm : ∀ (fuel s : Nat) (l : List Nat), (shuffleSel fuel s l).Perm l := by
  intro fuel
  induction fuel with
  | zero => intro s l; exact List.Perm.refl l
  | succ n ih =>
    intro s l
    cases l with
    | nil => exact List.Perm.refl _
    | cons a t =>
      cases he : extractIdx (lcgNext s % (a :: t).length) (a :: t) with
      | none =>
        have hstep : shuffleSel (n + 1) s (a :: t) = a :: t := by
          simp only [shuffleSel, he]
        rw [hstep]
      | some pr =>
        obtain ⟨x, r⟩ := pr
        have hstep : shuffleSel (n + 1) s (a :: t) = x :: shuffleSel n (lcgNext s) r := by
          simp only [shuffleSel, he]
        rw [hstep]
        exact ((ih _ _).cons x).trans (extractIdx_perm he).symm

theorem npPermutation_perm (seed n : Nat) : (npPermutation seed n).Perm (List.range n) :=
  shuffleSel_perm n (lcgNext seed) (List.range n)

theorem npPermutation_length (seed n : Nat) : (npPermutation seed n).length = n := by
  have := (npPermutation_perm seed n).length_eq
  simpa using this

theorem npPermutation_mem_lt (seed n : Nat) {i : Nat} (h : i ∈ npPermutation seed n) :
    i < n :=
  List.mem_range.mp ((npPermutation_perm seed n).mem_iff.mp h)

theorem pickIdx_range {α : Type} (l : List α) : pickIdx l (List.range l.length) = l := by
  induction l with
  | nil => rfl
  | cons a t ih =>
    show pickIdx (a :: t) (List.range (t.length + 1)) = a :: t
    rw [List.range_succ_eq_map]
    simp only [pickIdx, List.filterMap_cons, List.getElem?_cons_zero, List.filterMap_map]
    have hcomp : (fun i => (a :: t)[i]?) ∘ Nat.succ = fun i => t[i]? := by
      funext i
      simp
    rw [hcomp]
    exact congrArg (a :: ·) ih

theorem pickIdx_length {α : Type} (l : List α) (idxs : List Nat)
    (h : ∀ i ∈ idxs, i < l.length) : (pickIdx l idxs).length = idxs.length := by
  induction idxs with
  | nil => rfl
  | cons i t ih =>
    have hi : i < l.length := h i (List.mem_cons_self i t)
    simp only [pickIdx, List.filterMap_cons, List.getElem?_eq_getElem hi, List.length_cons]
    rw [show List.filterMap (fun j => l[j]?) t = pickIdx l t from rfl,
      ih (fun j hj => h j (List.mem_cons_of_mem _ hj))]

theorem pickIdx_append {α : Type} (l : List α) (xs ys : List Nat) :
    pickIdx l (xs ++ ys) = pickIdx l xs ++ pickIdx l ys :=
  List.filterMap_append xs ys _

theorem pickIdx_perm_of_perm {α : Type} (l : List α) {xs ys : List Nat}
    (h : xs.Perm ys) : (pickIdx l xs).Perm (pickIdx l ys) :=
  h.filterMap _

theorem nTestOf_le (n : Nat) : nTestOf n ≤ n := by
  unfold nTestOf; omega

theorem train_test_split_err {α : Type} (l : List α) (seed : Nat) (h : l.length ≤ 1) :
    train_test_split l seed = .error .valueError := by
  have hz : l.length - nTestOf l.length = 0 := by unfold nTestOf; omega
  simp [train_test_split, hz]

theorem train_test_split_ok {α : Type} (l : List α) (seed : Nat) (h : 2 ≤ l.length) :
    ∃ tr va, train_test_split l seed = .ok (tr, va) ∧
      tr.length = l.length - nTestOf l.length ∧
      va.length = nTestOf l.length ∧
      (tr ++ va).Perm l := by
  have hnz : ¬ l.length - nTestOf l.length = 0 := by unfold nTestOf; omega
  have hlen := npPermutation_length seed l.length
  have hmem : ∀ i ∈ npPermutation seed l.length, i < l.length :=
    fun i hi => npPermutation_mem_lt seed l.length hi
  refine ⟨pickIdx l ((npPermutation seed l.length).drop (nTestOf l.length)),
    pickIdx l ((npPermutation seed l.length).take (nTestOf l.length)), ?_, ?_, ?_, ?_⟩
  · simp [train_test_split, hnz]
  · rw [pickIdx_length _ _ (fun i hi => hmem i (List.drop_subset _ _ hi))]
    rw [List.length_drop, hlen]
  · rw [pickIdx_length _ _ (fun i hi => hmem i (List.take_subset _ _ hi))]
    rw [List.length_take, hlen]
    have := nTestOf_le l.length
    omega
  · rw [← pickIdx_append]
    have h1 : ((npPermutation seed l.length).drop (nTestOf l.length) ++
        (npPermutation seed l.length).take (nTestOf l.length)).Perm
        (List.range l.length) := by
      refine List.Perm.trans List.perm_append_comm ?_
      rw [List.take_append_drop]
      exact npPermutation_perm seed l.length
    exact (pickIdx_perm_of_perm l h1).trans (by rw [pickIdx_range])

/-! String and path lemmas. -/

theorem takeWhile_all {α : Type} {p : α → Bool} :
    ∀ {l : List α}, (∀ c ∈ l, p c = true) → l.takeWhile p = l := by
  intro l
  induction l with
  | nil => intro _; rfl
  | cons a t ih =>
    intro h
    rw [List.takeWhile_cons, if_pos (h a (List.mem_cons_self a t)),
      ih (fun c hc => h c (List.mem_cons_of_mem _ hc))]

theorem takeWhile_append_stop {α : Type} {p : α → Bool} {c : α} {l2 : List α} :
    ∀ {l1 : List α}, (∀ x ∈ l1, p x = true) → p c = false →
      (l1 ++ c :: l2).takeWhile p = l1 := by
  intro l1
  induction l1 with
  | nil => intro _ h2; simp [List.takeWhile_cons, h2]
  | cons a t ih =>
    intro h1 h2
    rw [List.cons_append, List.takeWhile_cons, if_pos (h1 a (List.mem_cons_self a t)),
      ih (fun x hx => h1 x (List.mem_cons_of_mem _ hx)) h2]

theorem dropWhile_append_stop {α : Type} {p : α → Bool} {c : α} {l2 : List α} :
    ∀ {l1 : List α}, (∀ x ∈ l1, p x = true) → p c = false →
      (l1 ++ c :: l2).dropWhile p = c :: l2 := by
  intro l1
  induction l1 with
  | nil => intro _ h2; simp [List.dropWhile_cons, h2]
  | cons a t ih =>
    intro h1 h2
    rw [List.cons_append, List.dropWhile_cons, if_pos (h1 a (List.mem_cons_self a t))]
    exact ih (fun x hx => h1 x (List.mem_cons_of_mem _ hx)) h2

theorem basename_concat {u v : List Char} (hv : ∀ c ∈ v, (c != '/') = true) :
    ((u ++ '/' :: v).reverse.takeWhile (fun c => c != '/')).reverse = v := by
  rw [List.reverse_append, List.reverse_cons, List.append_assoc, List.singleton_append,
    takeWhile_append_stop (fun c hc => hv c (List.mem_reverse.mp hc)) (by decide)]
  exact List.reverse_reverse v

theorem dirname_concat {u v : List Char} (hv : ∀ c ∈ v, (c != '/') = true) :
    (((u ++ '/' :: v).reverse.dropWhile (fun c => c != '/')).tail).reverse = u := by
  rw [List.reverse_append, List.reverse_cons, List.append_assoc, List.singleton_append,
    dropWhile_append_stop (fun c hc => hv c (List.mem_reverse.mp hc)) (by decide),
    List.tail_cons]
  exact List.reverse_reverse u

theorem data_eq_nil_iff {s : String} : s.data = [] ↔ s = "" :=
  ⟨fun h => String.ext (by rw [h]), fun h => by rw [h]⟩

theorem append_ne_empty_of_right {a b : String} (hb : b ≠ "") : a ++ b ≠ "" := by
  intro h
  apply hb
  have hd : a.data ++ b.data = [] := by
    have := congrArg String.data h
    rwa [String.data_append] at this
  exact data_eq_nil_iff.mp (List.append_eq_nil.mp hd).2

theorem noSlash_spec {s : String} (h : noSlash s = true) :
    ∀ c ∈ s.data, (c != '/') = true := by
  unfold noSlash at h
  exact List.all_eq_true.mp h

theorem noSlash_append {a b : String} (ha : noSlash a = true) (hb : noSlash b = true) :
    noSlash (a ++ b) = true := by
  unfold noSlash at *
  rw [String.data_append, List.all_append, ha, hb]
  rfl

theorem startsWithSlash_eq_false_of_noSlash {s : String} (hs : noSlash s = true) :
    startsWithSlash s = false := by
  unfold startsWithSlash
  cases h : s.data with
  | nil => rfl
  | cons c t =>
    have hc : (c != '/') = true := noSlash_spec hs c (h ▸ List.mem_cons_self c t)
    have : c ≠ '/' := by simpa using hc
    simpa using this

theorem startsWithSlash_append (a b : String) :
    startsWithSlash (a ++ b) = if a = "" then startsWithSlash b else startsWithSlash a := by
  by_cases ha : a = ""
  · subst ha
    rw [if_pos rfl, String.empty_append]
  · rw [if_neg ha]
    unfold startsWithSlash
    cases h : a.data with
    | nil => exact absurd (data_eq_nil_iff.mp h) ha
    | cons c t => rw [String.data_append, h]; rfl

theorem endsWithSlash_append_of_noSlash {a b : String} (hb : b ≠ "") (hbs : noSlash b = true) :
    endsWithSlash (a ++ b) = false := by
  have hd : b.data ≠ [] := fun h => hb (data_eq_nil_iff.mp h)
  unfold endsWithSlash
  cases h : b.data.reverse with
  | nil =>
    have : b.data = [] := by
      have h2 := congrArg List.reverse h
      rwa [List.reverse_reverse] at h2
    exact absurd this hd
  | cons c t =>
    have hc : c ∈ b.data := List.mem_reverse.mp (h ▸ List.mem_cons_self c t)
    have hcn : c ≠ '/' := by simpa using noSlash_spec hbs c hc
    rw [String.data_append, List.reverse_append, h]
    show (c == '/') = false
    simpa using hcn

theorem osPathJoin_three {a b : String} (ha : ¬(a = "" ∨ endsWithSlash a = true))
    (hb : startsWithSlash b = false) : osPathJoin a b = a ++ "/" ++ b := by
  unfold osPathJoin
  rw [if_neg (by simp [hb]), if_neg ha]

theorem osBasename_data (s : String) :
    (osBasename s).data = (s.data.reverse.takeWhile (fun c => c != '/')).reverse := rfl

theorem noSlash_osBasename (s : String) : noSlash (osBasename s) = true := by
  unfold noSlash
  rw [List.all_eq_true]
  intro c hc
  rw [osBasename_data] at hc
  exact @List.mem_takeWhile_imp Char (fun x => x != '/') s.data.reverse c
    (List.mem_reverse.mp hc)

theorem osBasename_of_noSlash {s : String} (hs : noSlash s = true) : osBasename s = s := by
  apply String.ext
  rw [osBasename_data,
    takeWhile_all (fun c hc => noSlash_spec hs c (List.mem_reverse.mp hc))]
  exact List.reverse_reverse _

theorem osBasename_join {a n : String} (_hn : n ≠ "") (hns : noSlash n = true) :
    osBasename (osPathJoin a n) = n := by
  have hsw := startsWithSlash_eq_false_of_noSlash hns
  have hv := noSlash_spec hns
  unfold osPathJoin
  rw [if_neg (by simp [hsw])]
  by_cases hc : a = "" ∨ endsWithSlash a = true
  · rw [if_pos hc]
    rcases hc with h0 | hslash
    · subst h0
      rw [String.empty_append]
      exact osBasename_of_noSlash hns
    · unfold endsWithSlash at hslash
      cases hr : a.data.reverse with
      | nil => rw [hr] at hslash; exact absurd hslash (by simp)
      | cons c t =>
        rw [hr] at hslash
        have hceq : c = '/' := by simpa using hslash
        subst hceq
        have hdata : a.data = t.reverse ++ '/' :: ([] : List Char) := by
          have h2 := congrArg List.reverse hr
          rw [List.reverse_reverse] at h2
          rw [h2, List.reverse_cons]
        apply String.ext
        rw [osBasename_data, String.data_append, hdata, List.append_assoc,
          List.singleton_append]
        exact basename_concat hv
  · rw [if_neg hc]
    apply String.ext
    rw [osBasename_data, String.data_append, String.data_append,
      show ("/" : String).data = ['/'] from rfl, List.append_assoc, List.singleton_append]
    exact basename_concat hv

theorem dropLastComp_concat {p s : String} (hs : noSlash s = true) :
    dropLastComp (p ++ "/" ++ s) = p := by
  apply String.ext
  show ((((p ++ "/" ++ s).data.reverse.dropWhile (fun c => c != '/')).tail).reverse) = p.data
  rw [String.data_append, String.data_append,
    show ("/" : String).data = ['/'] from rfl, List.append_assoc, List.singleton_append]
  exact dirname_concat (noSlash_spec hs)

theorem osPathJoin_good {a n : String} (hn : n ≠ "") (hns : noSlash n = true) :
    osPathJoin a n ≠ "" ∧ endsWithSlash (osPathJoin a n) = false := by
  have hsw := startsWithSlash_eq_false_of_noSlash hns
  unfold osPathJoin
  rw [if_neg (by simp [hsw])]
  by_cases hc : a = "" ∨ endsWithSlash a = true
  · rw [if_pos hc]
    exact ⟨append_ne_empty_of_right hn, endsWithSlash_append_of_noSlash hn hns⟩
  · rw [if_neg hc]
    exact ⟨append_ne_empty_of_right hn, endsWithSlash_append_of_noSlash hn hns⟩

theorem osPathJoin_inj_right {a n₁ n₂ : String}
    (h1 : noSlash n₁ = true) (h2 : noSlash n₂ = true)
    (heq : osPathJoin a n₁ = osPathJoin a n₂) : n₁ = n₂ := by
  have s1 := startsWithSlash_eq_false_of_noSlash h1
  have s2 := startsWithSlash_eq_false_of_noSlash h2
  have j1 : osPathJoin a n₁ =
      if a = "" ∨ endsWithSlash a = true then a ++ n₁ else a ++ "/" ++ n₁ := by
    unfold osPathJoin
    rw [if_neg (by simp [s1])]
  have j2 : osPathJoin a n₂ =
      if a = "" ∨ endsWithSlash a = true then a ++ n₂ else a ++ "/" ++ n₂ := by
    unfold osPathJoin
    rw [if_neg (by simp [s2])]
  rw [j1, j2] at heq
  by_cases hc : a = "" ∨ endsWithSlash a = true
  · rw [if_pos hc, if_pos hc] at heq
    apply String.ext
    have hd := congrArg String.data heq
    rw [String.data_append, String.data_append] at hd
    exact List.append_cancel_left hd
  · rw [if_neg hc, if_neg hc] at heq
    apply String.ext
    have hd := congrArg String.data heq
    rw [String.data_append, String.data_append, String.data_append,
      String.data_append] at hd
    exact List.append_cancel_left hd

theorem startsWithSlash_patArg (p tag : String) (htag : startsWithSlash tag = false) :
    startsWithSlash (osBasename p ++ tag) = false := by
  rw [startsWithSlash_append]
  by_cases h : osBasename p = ""
  · rw [if_pos h]; exact htag
  · rw [if_neg h]; exact startsWithSlash_eq_false_of_noSlash (noSlash_osBasename p)

theorem patFile_eq {p : String} (tag : String) (hp : p ≠ "") (hps : endsWithSlash p = false)
    (htag : startsWithSlash tag = false) :
    patFile p tag = p ++ "/" ++ (osBasename p ++ tag) := by
  unfold patFile
  exact osPathJoin_three (by simp [hp, hps]) (startsWithSlash_patArg p tag htag)

theorem patFile_inj {p₁ p₂ tag : String} (h1 : p₁ ≠ "") (h1s : endsWithSlash p₁ = false)
    (h2 : p₂ ≠ "") (h2s : endsWithSlash p₂ = false) (htS : startsWithSlash tag = false)
    (htN : noSlash tag = true) (heq : patFile p₁ tag = patFile p₂ tag) : p₁ = p₂ := by
  rw [patFile_eq tag h1 h1s htS, patFile_eq tag h2 h2s htS] at heq
  have e1 := @dropLastComp_concat p₁ (osBasename p₁ ++ tag)
    (noSlash_append (noSlash_osBasename p₁) htN)
  have e2 := @dropLastComp_concat p₂ (osBasename p₂ ++ tag)
    (noSlash_append (noSlash_osBasename p₂) htN)
  rw [← e1, ← e2, heq]

theorem mkRecord_inj {p₁ p₂ : String} (h1 : p₁ ≠ "") (h1s : endsWithSlash p₁ = false)
    (h2 : p₂ ≠ "") (h2s : endsWithSlash p₂ = false)
    (heq : mkRecord p₁ = mkRecord p₂) : p₁ = p₂ := by
  have hl : segPath p₁ = segPath p₂ := congrArg PatientRecord.label heq
  exact patFile_inj h1 h1s h2 h2s (by decide) (by decide) hl

/-! The explicit lexicographic comparison agrees with the linear order on
strings. -/

theorem lexLe_iff_not_lex : ∀ (u v : List Char),
    lexLe u v = true ↔ ¬ List.Lex (· < ·) v u := by
  intro u
  induction u with
  | nil =>
    intro v
    constructor
    · intro _ h; cases h
    · intro _; rfl
  | cons a as ih =>
    intro v
    cases v with
    | nil =>
      constructor
      · intro h; simp [lexLe] at h
      · intro h; exact absurd List.Lex.nil h
    | cons b bs =>
      unfold lexLe
      by_cases h1 : a < b
      · rw [if_pos h1]
        constructor
        · intro _ hlt
          cases hlt with
          | cons h => exact lt_irrefl a h1
          | rel hba => exact lt_asymm h1 hba
        · intro _; rfl
      · rw [if_neg h1]
        by_cases h2 : b < a
        · rw [if_pos h2]
          constructor
          · intro h; simp at h
          · intro h; exact absurd (List.Lex.rel h2) h
        · rw [if_neg h2, ih bs]
          have hab : a = b := le_antisymm (not_lt.mp h2) (not_lt.mp h1)
          subst hab
          constructor
          · intro h hlt
            cases hlt with
            | cons htail => exact h htail
            | rel hba => exact lt_irrefl a hba
          · intro h hlt
            exact h (List.Lex.cons hlt)

theorem strLe_iff_le {a b : String} : strLe a b = true ↔ a ≤ b := by
  unfold strLe
  rw [lexLe_iff_not_lex]
  constructor
  · intro h hba
    exact h (String.lt_iff_toList_lt.mp hba)
  · intro h hba
    exact h (String.lt_iff_toList_lt.mpr hba)

theorem strLe_total (a b : String) : strLe a b = true ∨ strLe b a = true := by
  rw [strLe_iff_le, strLe_iff_le]
  exact le_total a b

theorem strLe_trans {a b c : String} (h1 : strLe a b = true) (h2 : strLe b c = true) :
    strLe a c = true := by
  rw [strLe_iff_le] at *
  exact le_trans h1 h2

/-! Lemmas about the directory scan and the assembled data list. -/

theorem mem_patientDirs {fs : FS} {dir p : String} :
    p ∈ patientDirs fs dir ↔
      ∃ n, n ∈ fs.rootEntries ∧ startsWithDot n = false ∧
        fs.isDir (osPathJoin dir n) = true ∧ p = osPathJoin dir n := by
  unfold patientDirs globStar
  rw [List.mem_filter, List.mem_insertionSort, List.mem_map]
  constructor
  · rintro ⟨⟨n, hn, rfl⟩, hdir⟩
    rw [List.mem_filter] at hn
    refine ⟨n, hn.1, ?_, hdir, rfl⟩
    simpa using hn.2
  · rintro ⟨n, hn, hdot, hdir, rfl⟩
    exact ⟨⟨n, List.mem_filter.mpr ⟨hn, by simp [hdot]⟩, rfl⟩, hdir⟩

theorem patientDirs_sorted (fs : FS) (dir : String) :
    List.Sorted (· ≤ ·) (patientDirs fs dir) := by
  have htot : IsTotal String (fun a b => strLe a b = true) := ⟨strLe_total⟩
  have htrans : IsTrans String (fun a b => strLe a b = true) :=
    ⟨fun _ _ _ => strLe_trans⟩
  have hs := @List.sorted_insertionSort String (fun a b => strLe a b = true) _
    htot htrans (globStar fs dir)
  exact (hs.imp fun h => strLe_iff_le.mp h).filter fs.isDir

theorem patientDirs_shape {fs : FS} {dir : String}
    (hnames : ∀ n ∈ fs.rootEntries, n ≠ "" ∧ noSlash n = true) :
    ∀ p ∈ patientDirs fs dir, p ≠ "" ∧ endsWithSlash p = false := by
  intro p hp
  obtain ⟨n, hn, -, -, rfl⟩ := mem_patientDirs.mp hp
  exact osPathJoin_good (hnames n hn).1 (hnames n hn).2

theorem patientDirs_nodup {fs : FS} {dir : String} (hnd : fs.rootEntries.Nodup)
    (hnames : ∀ n ∈ fs.rootEntries, n ≠ "" ∧ noSlash n = true) :
    (patientDirs fs dir).Nodup := by
  unfold patientDirs globStar
  apply List.Nodup.filter
  apply List.Perm.nodup (List.perm_insertionSort _ _).symm
  apply List.Nodup.map_on
  · intro x hx y hy hxy
    rw [List.mem_filter] at hx hy
    exact osPathJoin_inj_right (hnames x hx.1).2 (hnames y hy.1).2 hxy
  · exact hnd.filter _

theorem dataListOf_eq (fs : FS) (dir : String) :
    dataListOf fs dir = ((patientDirs fs dir).filter
      (fun p => fs.pathExists (t1Path p) && fs.pathExists (segPath p))).map mkRecord := by
  unfold dataListOf
  generalize patientDirs fs dir = l
  induction l with
  | nil => rfl
  | cons a t ih =>
    cases h : (fs.pathExists (t1Path a) && fs.pathExists (segPath a)) with
    | true => simp only [List.filterMap_cons, List.filter_cons, h, if_pos trivial,
        List.map_cons, ih]
    | false => simp only [List.filterMap_cons, List.filter_cons, h, ih]; rfl

theorem dataList_nodup {fs : FS} {dir : String} (hnd : fs.rootEntries.Nodup)
    (hnames : ∀ n ∈ fs.rootEntries, n ≠ "" ∧ noSlash n = true) :
    (dataListOf fs dir).Nodup := by
  rw [dataListOf_eq]
  apply List.Nodup.map_on
  · intro x hx y hy hxy
    rw [List.mem_filter] at hx hy
    have gx := patientDirs_shape hnames x hx.1
    have gy := patientDirs_shape hnames y hy.1
    exact mkRecord_inj gx.1 gx.2 gy.1 gy.2 hxy
  · exact (patientDirs_nodup hnd hnames).filter _

theorem dataListOf_ne_nil_dirs (fs : FS) (dir : String) (h : dataListOf fs dir ≠ []) :
    patientDirs fs dir ≠ [] := by
  intro hd
  apply h
  unfold dataListOf
  rw [hd]
  rfl

/-! Lemmas about `setup` as a whole. -/

theorem setup_of_no_dirs (fs : FS) (m : BraTSDataModule)
    (h : patientDirs fs m.data_dir = []) :
    BraTSDataModule.setup fs m = (m, some SetupError.fileNotFound) := by
  unfold BraTSDataModule.setup setupResult
  rw [h]
  rfl

theorem setup_of_few (fs : FS) (m : BraTSDataModule)
    (h1 : patientDirs fs m.data_dir ≠ [])
    (h2 : (dataListOf fs m.data_dir).length ≤ 1) :
    BraTSDataModule.setup fs m = (m, some SetupError.valueError) := by
  unfold BraTSDataModule.setup setupResult
  rw [if_neg (fun hh => h1 (List.length_eq_zero.mp hh)),
    train_test_split_err _ 42 h2]

theorem setup_ok (fs : FS) (m : BraTSDataModule)
    (h : 2 ≤ (dataListOf fs m.data_dir).length) :
    ∃ tr va,
      BraTSDataModule.setup fs m = ({ m with train_files := tr, val_files := va }, none) ∧
      tr.length =
        (dataListOf fs m.data_dir).length - nTestOf (dataListOf fs m.data_dir).length ∧
      va.length = nTestOf (dataListOf fs m.data_dir).length ∧
      (tr ++ va).Perm (dataListOf fs m.data_dir) := by
  obtain ⟨tr, va, hsp, hlt, hlv, hperm⟩ := train_test_split_ok (dataListOf fs m.data_dir) 42 h
  have hne : dataListOf fs m.data_dir ≠ [] := by
    intro hh
    rw [hh] at h
    simp at h
  have hd := dataListOf_ne_nil_dirs fs m.data_dir hne
  refine ⟨tr, va, ?_, hlt, hlv, hperm⟩
  unfold BraTSDataModule.setup setupResult
  rw [if_neg (fun hh => hd (List.length_eq_zero.mp hh)), hsp]

theorem patFile_inj_full {p₁ p₂ t₁ t₂ : String}
    (h1 : p₁ ≠ "") (h1s : endsWithSlash p₁ = false)
    (h2 : p₂ ≠ "") (h2s : endsWithSlash p₂ = false)
    (ht1S : startsWithSlash t₁ = false) (ht1N : noSlash t₁ = true)
    (ht2S : startsWithSlash t₂ = false) (ht2N : noSlash t₂ = true)
    (heq : patFile p₁ t₁ = patFile p₂ t₂) : p₁ = p₂ ∧ t₁ = t₂ := by
  rw [patFile_eq t₁ h1 h1s ht1S, patFile_eq t₂ h2 h2s ht2S] at heq
  have hp : p₁ = p₂ := by
    have e1 := @dropLastComp_concat p₁ (osBasename p₁ ++ t₁)
      (noSlash_append (noSlash_osBasename p₁) ht1N)
    have e2 := @dropLastComp_concat p₂ (osBasename p₂ ++ t₂)
      (noSlash_append (noSlash_osBasename p₂) ht2N)
    rw [← e1, ← e2, heq]
  subst hp
  refine ⟨rfl, ?_⟩
  have hd := congrArg String.data heq
  rw [String.data_append, String.data_append, String.data_append, String.data_append,
    String.data_append, String.data_append] at hd
  apply String.ext
  exact List.append_cancel_left (List.append_cancel_left hd)

theorem filter_length_flip {α : Type} (l : List α) (c c₂ : α → Bool) (a : α)
    (hnd : l.Nodup) (ha : a ∈ l) (hc : c a = true) (hc₂ : c₂ a = false)
    (hagree : ∀ x ∈ l, x ≠ a → c₂ x = c x) :
    (l.filter c₂).length + 1 = (l.filter c).length := by
  induction l with
  | nil => simp at ha
  | cons b t ih =>
    rw [List.nodup_cons] at hnd
    rcases List.mem_cons.mp ha with rfl | hat
    · have hft : t.filter c₂ = t.filter c :=
        List.filter_congr (fun x hx =>
          hagree x (List.mem_cons_of_mem _ hx) (fun he => hnd.1 (he ▸ hx)))
      simp [List.filter_cons, hc, hc₂, hft]
    · have hba : b ≠ a := fun he => hnd.1 (he ▸ hat)
      have hih := ih hnd.2 hat (fun x hx hne => hagree x (List.mem_cons_of_mem _ hx) hne)
      rw [List.filter_cons, List.filter_cons, hagree b (List.mem_cons_self b t) hba]
      cases hcb : c b with
      | true => simpa using hih
      | false => simpa using hih

/-! Claim theorems. -/

/-- Claim C1 counterexample: a root with one patient subdirectory but no
files has zero valid records, yet `setup` raises the split's `ValueError`,
not the no-data `FileNotFoundError` the claim requires. -/
theorem C1_no_data_error_cex :
    dataListOf fsOneInvalid mEx.data_dir = [] ∧
    (BraTSDataModule.setup fsOneInvalid mEx).2 = some SetupError.valueError ∧
    (BraTSDataModule.setup fsOneInvalid mEx).2 ≠ some SetupError.fileNotFound := by
  decide

/-- Claim C1, amended: whenever the scan yields zero valid records, `setup`
raises and returns no partial result (the module is unchanged); the error is
`FileNotFoundError` exactly when there were zero subdirectories, and the
split's `ValueError` when subdirectories exist but none is valid. -/
theorem C1_no_data_error (fs : FS) (m : BraTSDataModule)
    (h : dataListOf fs m.data_dir = []) :
    (BraTSDataModule.setup fs m).1 = m ∧
    (BraTSDataModule.setup fs m).2 =
      some (if patientDirs fs m.data_dir = [] then SetupError.fileNotFound
            else SetupError.valueError) := by
  by_cases hd : patientDirs fs m.data_dir = []
  · rw [setup_of_no_dirs fs m hd, if_pos hd]
    exact ⟨rfl, rfl⟩
  · rw [setup_of_few fs m hd (by rw [h]; simp), if_neg hd]
    exact ⟨rfl, rfl⟩

/-- Claim C1 witness: the amended statement evaluated on the one-invalid-
directory root. -/
theorem C1_no_data_error_w :
    dataListOf fsOneInvalid mEx.data_dir = [] ∧
    (BraTSDataModule.setup fsOneInvalid mEx).1 = mEx ∧
    (BraTSDataModule.setup fsOneInvalid mEx).2 =
      some (if patientDirs fsOneInvalid mEx.data_dir = [] then SetupError.fileNotFound
            else SetupError.valueError) := by
  have h : dataListOf fsOneInvalid mEx.data_dir = [] := by decide
  have hh := C1_no_data_error fsOneInvalid mEx h
  exact ⟨h, hh.1, hh.2⟩

/-- Claim C2 counterexample: in the spec's scenario (patient 00001 complete,
patient 00002 missing its label) the scan yields exactly one valid record,
but `setup` does not complete with that record as the train set: the split
raises `ValueError` and the module keeps its empty lists. -/
theorem C2_single_record_cex :
    (dataListOf fsScenario mEx.data_dir).length = 1 ∧
    BraTSDataModule.setup fsScenario mEx = (mEx, some SetupError.valueError) ∧
    (BraTSDataModule.setup fsScenario mEx).2 ≠ none := by
  decide

/-- Claim C2, amended: whenever the scan yields exactly one valid record,
`setup` raises the split's `ValueError` (the train fold would be empty) and
returns no partial result. -/
theorem C2_single_record (fs : FS) (m : BraTSDataModule)
    (h : (dataListOf fs m.data_dir).length = 1) :
    BraTSDataModule.setup fs m = (m, some SetupError.valueError) := by
  apply setup_of_few
  · apply dataListOf_ne_nil_dirs
    intro hh
    rw [hh] at h
    simp at h
  · omega

/-- Claim C2 witness: the amended statement evaluated on the spec's
scenario. -/
theorem C2_single_record_w :
    (dataListOf fsScenario mEx.data_dir).length = 1 ∧
    BraTSDataModule.setup fsScenario mEx = (mEx, some SetupError.valueError) :=
  ⟨by decide, C2_single_record fsScenario mEx (by decide)⟩

/-- Claim C8: the validation loader always uses batch size 1 and no
shuffling, whatever the configured batch size; the training loader uses the
configured batch size with shuffling enabled. -/
theorem C8_loader_config (m : BraTSDataModule) :
    (BraTSDataModule.val_dataloader m).batch_size = 1 ∧
    (BraTSDataModule.val_dataloader m).shuffle = false ∧
    (BraTSDataModule.train_dataloader m).batch_size = m.batch_size ∧
    (BraTSDataModule.train_dataloader m).shuffle = true :=
  ⟨rfl, rfl, rfl, rfl⟩

/-- Claim C8 witness: the loader configuration evaluated on a concrete
module whose configured batch size is 2. -/
theorem C8_loader_config_w :
    (BraTSDataModule.val_dataloader mEx2).batch_size = 1 ∧
    (BraTSDataModule.val_dataloader mEx2).shuffle = false ∧
    (BraTSDataModule.train_dataloader mEx2).batch_size = mEx2.batch_size ∧
    (BraTSDataModule.train_dataloader mEx2).shuffle = true :=
  C8_loader_config mEx2

/-- Claim C9: whenever `setup` raises, the module's record-list fields keep
their prior values, and a freshly constructed module has both lists empty. -/
theorem C9_no_partial_assignment :
    (∀ (fs : FS) (m : BraTSDataModule) (e : SetupError),
      (BraTSDataModule.setup fs m).2 = some e → (BraTSDataModule.setup fs m).1 = m) ∧
    (∀ (d : String) (b w : Nat) (c : Rat),
      (mkBraTSDataModule d b w c).train_files = [] ∧
      (mkBraTSDataModule d b w c).val_files = []) := by
  constructor
  · intro fs m e h
    unfold BraTSDataModule.setup at *
    cases hs : setupResult fs m.data_dir with
    | error e2 => rfl
    | ok pr =>
      obtain ⟨tr, va⟩ := pr
      rw [hs] at h
      simp at h
  · intro d b w c
    exact ⟨rfl, rfl⟩

/-- Claim C9 witness: on the empty root, `setup` raises and the fresh
module's fields remain the constructor's empty lists. -/
theorem C9_no_partial_assignment_w :
    (BraTSDataModule.setup fsEmpty mEx).2 = some SetupError.fileNotFound ∧
    (BraTSDataModule.setup fsEmpty mEx).1 = mEx ∧
    mEx.train_files = [] ∧ mEx.val_files = [] := by
  have h : (BraTSDataModule.setup fsEmpty mEx).2 = some SetupError.fileNotFound := by decide
  refine ⟨h, C9_no_partial_assignment.1 fsEmpty mEx SetupError.fileNotFound h, ?_, ?_⟩
  · exact (C9_no_partial_assignment.2 ("d") 1 4 1).1
  · exact (C9_no_partial_assignment.2 ("d") 1 4 1).2

/-- Claim C10 counterexample: calling `train_dataloader` on a freshly
constructed module does not return a loader without error — the dataset is
the constructor's empty list, and building the loader raises `ValueError`
because `shuffle=True` instantiates a `RandomSampler` over that empty
dataset. -/
theorem C10_loaders_before_setup_cex :
    (BraTSDataModule.train_dataloader (mkBraTSDataModule ("d") 1 4 1)).dataset.data = [] ∧
    buildDataLoader (BraTSDataModule.train_dataloader (mkBraTSDataModule ("d") 1 4 1)) =
      Except.error SetupError.valueError :=
  ⟨rfl, rfl⟩

/-- Claim C10, amended: before `setup` has run, neither dataloader method
reads the filesystem index or triggers the no-data failure — each assembles
its loader over the constructor's empty record list — and the validation
loader (batch size 1, unshuffled) is constructed without error; the
training loader's construction, however, raises `ValueError`, because with
`shuffle=True` the sampler rejects the empty dataset at `DataLoader`
creation. -/
theorem C10_loaders_before_setup (d : String) (b w : Nat) (c : Rat) :
    (BraTSDataModule.train_dataloader (mkBraTSDataModule d b w c)).dataset.data = [] ∧
    (BraTSDataModule.val_dataloader (mkBraTSDataModule d b w c)).dataset.data = [] ∧
    buildDataLoader (BraTSDataModule.val_dataloader (mkBraTSDataModule d b w c)) =
      Except.ok (BraTSDataModule.val_dataloader (mkBraTSDataModule d b w c)) ∧
    buildDataLoader (BraTSDataModule.train_dataloader (mkBraTSDataModule d b w c)) =
      Except.error SetupError.valueError :=
  ⟨rfl, rfl, rfl, rfl⟩

/-- Claim C10 witness: the amended statement at a concrete configuration. -/
theorem C10_loaders_before_setup_w :
    (BraTSDataModule.train_dataloader (mkBraTSDataModule ("d") 1 4 1)).dataset.data = [] ∧
    (BraTSDataModule.val_dataloader (mkBraTSDataModule ("d") 1 4 1)).dataset.data = [] ∧
    buildDataLoader (BraTSDataModule.val_dataloader (mkBraTSDataModule ("d") 1 4 1)) =
      Except.ok (BraTSDataModule.val_dataloader (mkBraTSDataModule ("d") 1 4 1)) ∧
    buildDataLoader (BraTSDataModule.train_dataloader (mkBraTSDataModule ("d") 1 4 1)) =
      Except.error SetupError.valueError :=
  C10_loaders_before_setup ("d") 1 4 1

/-- Claim C5: `setup`'s outcome is a function of the root contents and the
stored root path alone (the seed is the fixed constant 42): two modules over
the same root agree on the raised error and, on success, on the train and
validation lists; and running `setup` again on the module it produced
reproduces the same membership. -/
theorem C5_deterministic :
    (∀ (fs : FS) (m₁ m₂ : BraTSDataModule), m₁.data_dir = m₂.data_dir →
      (BraTSDataModule.setup fs m₁).2 = (BraTSDataModule.setup fs m₂).2 ∧
      ((BraTSDataModule.setup fs m₁).2 = none →
        (BraTSDataModule.setup fs m₁).1.train_files =
          (BraTSDataModule.setup fs m₂).1.train_files ∧
        (BraTSDataModule.setup fs m₁).1.val_files =
          (BraTSDataModule.setup fs m₂).1.val_files)) ∧
    (∀ (fs : FS) (m : BraTSDataModule),
      (BraTSDataModule.setup fs (BraTSDataModule.setup fs m).1).1.train_files =
        (BraTSDataModule.setup fs m).1.train_files ∧
      (BraTSDataModule.setup fs (BraTSDataModule.setup fs m).1).1.val_files =
        (BraTSDataModule.setup fs m).1.val_files) := by
  constructor
  · intro fs m₁ m₂ hdd
    unfold BraTSDataModule.setup
    rw [hdd]
    cases setupResult fs m₂.data_dir with
    | error e => exact ⟨rfl, fun hh => absurd hh (by simp)⟩
    | ok pr =>
      obtain ⟨tr, va⟩ := pr
      exact ⟨rfl, fun _ => ⟨rfl, rfl⟩⟩
  · intro fs m
    cases hs : setupResult fs m.data_dir with
    | error e =>
      have h1 : BraTSDataModule.setup fs m = (m, some e) := by
        unfold BraTSDataModule.setup
        rw [hs]
      rw [h1]
      have h2 : BraTSDataModule.setup fs (m, some e).1 = (m, some e) := by
        unfold BraTSDataModule.setup
        rw [hs]
      rw [h2]
      exact ⟨rfl, rfl⟩
    | ok pr =>
      obtain ⟨tr, va⟩ := pr
      have h1 : BraTSDataModule.setup fs m =
          ({ m with train_files := tr, val_files := va }, none) := by
        unfold BraTSDataModule.setup
        rw [hs]
      rw [h1]
      have h3 : BraTSDataModule.setup fs
          ({ m with train_files := tr, val_files := va },
            (none : Option SetupError)).1 =
          ({ m with train_files := tr, val_files := va }, none) := by
        unfold BraTSDataModule.setup
        have h2 : (({ m with train_files := tr, val_files := va },
            (none : Option SetupError)).1).data_dir = m.data_dir := rfl
        rw [h2, hs]
      rw [h3]
      exact ⟨rfl, rfl⟩

/-- Claim C5 witness: two modules with different loader configuration over
the same root produce the same error outcome and, the run succeeding, the
same membership. -/
theorem C5_deterministic_w :
    (BraTSDataModule.setup fsTwoValid mEx).2 = (BraTSDataModule.setup fsTwoValid mEx2).2 ∧
    ((BraTSDataModule.setup fsTwoValid mEx).2 = none →
      (BraTSDataModule.setup fsTwoValid mEx).1.train_files =
        (BraTSDataModule.setup fsTwoValid mEx2).1.train_files ∧
      (BraTSDataModule.setup fsTwoValid mEx).1.val_files =
        (BraTSDataModule.setup fsTwoValid mEx2).1.val_files) :=
  C5_deterministic.1 fsTwoValid mEx mEx2 rfl

/-- Claim C6: for a root not ending in the separator and a slash-free
patient name, the record built for the patient directory consists of the
four modality paths in the fixed order T1, T1ce, T2, FLAIR and the label
path, each the literal concatenation root/P/P-tail. -/
theorem C6_record_paths (root P : String) (h1 : root ≠ "")
    (h2 : endsWithSlash root = false) (h3 : P ≠ "") (h4 : noSlash P = true) :
    mkRecord (osPathJoin root P) =
      { image := [root ++ "/" ++ P ++ "/" ++ P ++ "-t1n.nii.gz",
                  root ++ "/" ++ P ++ "/" ++ P ++ "-t1c.nii.gz",
                  root ++ "/" ++ P ++ "/" ++ P ++ "-t2w.nii.gz",
                  root ++ "/" ++ P ++ "/" ++ P ++ "-t2f.nii.gz"],
        label := root ++ "/" ++ P ++ "/" ++ P ++ "-seg.nii.gz" } := by
  have hjoin : osPathJoin root P = root ++ "/" ++ P :=
    osPathJoin_three (by simp [h1, h2]) (startsWithSlash_eq_false_of_noSlash h4)
  have hb : osBasename (osPathJoin root P) = P := osBasename_join h3 h4
  have hgood := @osPathJoin_good root P h3 h4
  have hfile : ∀ tag : String, startsWithSlash tag = false →
      patFile (osPathJoin root P) tag = root ++ "/" ++ P ++ "/" ++ P ++ tag := by
    intro tag htg
    rw [patFile_eq tag hgood.1 hgood.2 htg, hb, hjoin, ← String.append_assoc]
  unfold mkRecord t1Path t1cePath t2Path flairPath segPath
  rw [hfile ("-t1n.nii.gz") (by decide), hfile ("-t1c.nii.gz") (by decide),
    hfile ("-t2w.nii.gz") (by decide), hfile ("-t2f.nii.gz") (by decide),
    hfile ("-seg.nii.gz") (by decide)]

/-- Claim C6 witness: the record shape evaluated at a concrete root and
patient identifier. -/
theorem C6_record_paths_w :
    mkRecord (osPathJoin ("data") ("BraTS-GLI-00001")) =
      { image := ["data/BraTS-GLI-00001/BraTS-GLI-00001-t1n.nii.gz",
                  "data/BraTS-GLI-00001/BraTS-GLI-00001-t1c.nii.gz",
                  "data/BraTS-GLI-00001/BraTS-GLI-00001-t2w.nii.gz",
                  "data/BraTS-GLI-00001/BraTS-GLI-00001-t2f.nii.gz"],
        label := "data/BraTS-GLI-00001/BraTS-GLI-00001-seg.nii.gz" } := by
  have h := C6_record_paths ("data") ("BraTS-GLI-00001")
    (by decide) (by decide) (by decide) (by decide)
  rw [h]
  decide

/-- Claim C7 counterexample: a hidden immediate child directory of the root
is not considered by the scan — the glob pattern skips dot entries — so a
root whose only subdirectory is hidden is treated as having no data. -/
theorem C7_scan_cex :
    (".hidden" ∈ fsHidden.rootEntries ∧
      fsHidden.isDir (osPathJoin mEx.data_dir (".hidden")) = true) ∧
    patientDirs fsHidden mEx.data_dir = [] ∧
    (BraTSDataModule.setup fsHidden mEx).2 = some SetupError.fileNotFound := by
  decide

/-- Claim C7, amended: the scan yields, in lexicographically sorted order,
exactly the joins of the root with those entry names that do not start with
a dot and denote directories: every non-directory entry is excluded, and
among the immediate child directories exactly the non-hidden ones are
considered. -/
theorem C7_scan_considered (fs : FS) (dir : String) :
    List.Sorted (· ≤ ·) (patientDirs fs dir) ∧
    (∀ p : String, p ∈ patientDirs fs dir ↔
      ∃ n, n ∈ fs.rootEntries ∧ startsWithDot n = false ∧
        fs.isDir (osPathJoin dir n) = true ∧ p = osPathJoin dir n) :=
  ⟨patientDirs_sorted fs dir, fun _ => mem_patientDirs⟩

/-- Claim C7 witness: on the two-patient root the scan is sorted and
contains the join of the root with a concrete non-hidden directory name. -/
theorem C7_scan_considered_w :
    List.Sorted (· ≤ ·) (patientDirs fsTwoValid ("d")) ∧
    osPathJoin ("d") ("BraTS-GLI-00001") ∈ patientDirs fsTwoValid ("d") := by
  refine ⟨(C7_scan_considered fsTwoValid ("d")).1, ?_⟩
  rw [(C7_scan_considered fsTwoValid ("d")).2]
  exact ⟨"BraTS-GLI-00001", by decide, by decide, by decide, rfl⟩

/-- Claim C3 counterexample: a root with two valid patient folders splits
into one training and one validation record; the claimed round(0.8·N)
training size would be round(1.6) = 2. -/
theorem C3_split_sizes_cex :
    (dataListOf fsTwoValid mEx.data_dir).length = 2 ∧
    (∀ p ∈ patientDirs fsTwoValid mEx.data_dir,
      (fsTwoValid.pathExists (t1Path p) && fsTwoValid.pathExists (segPath p)) = true) ∧
    (BraTSDataModule.setup fsTwoValid mEx).2 = none ∧
    ¬(((BraTSDataModule.setup fsTwoValid mEx).1.train_files.length : ℤ) =
      round ((0.8 : ℚ) * 2)) := by
  refine ⟨by decide, by decide, by decide, ?_⟩
  have h1 : (BraTSDataModule.setup fsTwoValid mEx).1.train_files.length = 1 := by decide
  have h2 : round ((0.8 : ℚ) * 2) = 2 := by norm_num [round_eq]
  rw [h1, h2]
  decide

/-- Claim C3, amended: for a root whose N scanned directories are all valid
(distinct well-formed entry names) with N at least 2, `setup` succeeds and
produces exactly N records, `N - ⌈N/5⌉` (that is, floor(0.8·N)) of them in
the train list and `⌈N/5⌉` (ceil(0.2·N)) in the validation list, with no
overlap and every record in exactly one list; with fewer than 2 records the
split raises instead of producing lists. -/
theorem C3_split_sizes (fs : FS) (m : BraTSDataModule)
    (hnd : fs.rootEntries.Nodup)
    (hnames : ∀ n ∈ fs.rootEntries, n ≠ "" ∧ noSlash n = true)
    (hvalid : ∀ p ∈ patientDirs fs m.data_dir,
      (fs.pathExists (t1Path p) && fs.pathExists (segPath p)) = true)
    (hN : 2 ≤ (patientDirs fs m.data_dir).length) :
    (BraTSDataModule.setup fs m).2 = none ∧
    (BraTSDataModule.setup fs m).1.train_files.length +
      (BraTSDataModule.setup fs m).1.val_files.length =
      (patientDirs fs m.data_dir).length ∧
    (BraTSDataModule.setup fs m).1.train_files.length =
      (patientDirs fs m.data_dir).length - nTestOf (patientDirs fs m.data_dir).length ∧
    (BraTSDataModule.setup fs m).1.val_files.length =
      nTestOf (patientDirs fs m.data_dir).length ∧
    (∀ x : PatientRecord, ¬(x ∈ (BraTSDataModule.setup fs m).1.train_files ∧
      x ∈ (BraTSDataModule.setup fs m).1.val_files)) ∧
    (∀ x : PatientRecord, x ∈ dataListOf fs m.data_dir ↔
      (x ∈ (BraTSDataModule.setup fs m).1.train_files ∨
        x ∈ (BraTSDataModule.setup fs m).1.val_files)) := by
  have hlen : (dataListOf fs m.data_dir).length = (patientDirs fs m.data_dir).length := by
    rw [dataListOf_eq fs m.data_dir, List.length_map, List.filter_eq_self.mpr hvalid]
  obtain ⟨tr, va, hst, hlt, hlv, hperm⟩ := setup_ok fs m (by omega)
  have hnodup : (dataListOf fs m.data_dir).Nodup := dataList_nodup hnd hnames
  have happnd : (tr ++ va).Nodup := hperm.symm.nodup hnodup
  obtain ⟨-, -, hdisj⟩ := List.nodup_append.mp happnd
  have hle := nTestOf_le (dataListOf fs m.data_dir).length
  rw [hst]
  refine ⟨rfl, ?_, ?_, ?_, ?_, ?_⟩
  · show tr.length + va.length = _
    omega
  · show tr.length = _
    rw [hlt, hlen]
  · show va.length = _
    rw [hlv, hlen]
  · intro x hx
    exact hdisj hx.1 hx.2
  · intro x
    show x ∈ dataListOf fs m.data_dir ↔ (x ∈ tr ∨ x ∈ va)
    exact ⟨fun hx => List.mem_append.mp (hperm.mem_iff.mpr hx),
      fun hx => hperm.mem_iff.mp (List.mem_append.mpr hx)⟩

/-- Claim C3 witness: the amended statement evaluated on the two-patient
root: both records are produced, one per fold. -/
theorem C3_split_sizes_w :
    2 ≤ (patientDirs fsTwoValid mEx.data_dir).length ∧
    (BraTSDataModule.setup fsTwoValid mEx).2 = none ∧
    (BraTSDataModule.setup fsTwoValid mEx).1.train_files.length = 1 ∧
    (BraTSDataModule.setup fsTwoValid mEx).1.val_files.length = 1 := by
  have h := C3_split_sizes fsTwoValid mEx (by decide) (by decide) (by decide) (by decide)
  refine ⟨by decide, h.1, ?_, ?_⟩
  · rw [h.2.2.1]
    decide
  · rw [h.2.2.2.1]
    decide

/-- Claim C4: a record is included exactly when the patient's T1 file and
label file both exist — structurally, the data list is the record image of
the directories passing that two-file test; the other three modality files
are never consulted (two roots agreeing on every T1 and label path yield the
same data list); and removing one valid patient's T1 file excludes that
patient from both splits and decreases the record count by exactly one. -/
theorem C4_inclusion_rule :
    (∀ (fs : FS) (dir : String),
      dataListOf fs dir = ((patientDirs fs dir).filter
        (fun p => fs.pathExists (t1Path p) && fs.pathExists (segPath p))).map mkRecord) ∧
    (∀ (fs : FS) (dir p : String),
      fs.rootEntries.Nodup →
      (∀ n ∈ fs.rootEntries, n ≠ "" ∧ noSlash n = true) →
      p ∈ patientDirs fs dir →
      (mkRecord p ∈ dataListOf fs dir ↔
        (fs.pathExists (t1Path p) = true ∧ fs.pathExists (segPath p) = true))) ∧
    (∀ (fs₁ fs₂ : FS) (dir : String),
      fs₁.rootEntries = fs₂.rootEntries → fs₁.isDir = fs₂.isDir →
      (∀ q, fs₁.pathExists (t1Path q) = fs₂.pathExists (t1Path q)) →
      (∀ q, fs₁.pathExists (segPath q) = fs₂.pathExists (segPath q)) →
      dataListOf fs₁ dir = dataListOf fs₂ dir) ∧
    (∀ (fs fs₂ : FS) (m : BraTSDataModule) (p₀ : String),
      fs.rootEntries.Nodup →
      (∀ n ∈ fs.rootEntries, n ≠ "" ∧ noSlash n = true) →
      m.train_files = [] → m.val_files = [] →
      p₀ ∈ patientDirs fs m.data_dir →
      fs.pathExists (t1Path p₀) = true → fs.pathExists (segPath p₀) = true →
      fs₂.rootEntries = fs.rootEntries → fs₂.isDir = fs.isDir →
      (∀ q, fs₂.pathExists q = if q = t1Path p₀ then false else fs.pathExists q) →
      ((dataListOf fs₂ m.data_dir).length + 1 = (dataListOf fs m.data_dir).length ∧
        mkRecord p₀ ∉ (BraTSDataModule.setup fs₂ m).1.train_files ∧
        mkRecord p₀ ∉ (BraTSDataModule.setup fs₂ m).1.val_files)) := by
  refine ⟨dataListOf_eq, ?_, ?_, ?_⟩
  · intro fs dir p hnd hnames hp
    rw [dataListOf_eq fs dir]
    constructor
    · intro hmem
      rw [List.mem_map] at hmem
      obtain ⟨q, hq, hqe⟩ := hmem
      rw [List.mem_filter] at hq
      have gq := patientDirs_shape hnames q hq.1
      have gp := patientDirs_shape hnames p hp
      have hqp : q = p := mkRecord_inj gq.1 gq.2 gp.1 gp.2 hqe
      subst hqp
      simpa using hq.2
    · rintro ⟨h1, h2⟩
      rw [List.mem_map]
      refine ⟨p, List.mem_filter.mpr ⟨hp, ?_⟩, rfl⟩
      rw [h1, h2]
      rfl
  · intro fs₁ fs₂ dir he hd ht hs
    have hpd : patientDirs fs₁ dir = patientDirs fs₂ dir := by
      unfold patientDirs globStar
      rw [he, hd]
    rw [dataListOf_eq fs₁ dir, dataListOf_eq fs₂ dir, hpd]
    congr 1
    apply List.filter_congr
    intro x _
    rw [ht x, hs x]
  · intro fs fs₂ m p₀ hnd hnames hm1 hm2 hp0 ht0 hs0 he hd hpe
    have hpd : patientDirs fs₂ m.data_dir = patientDirs fs m.data_dir := by
      unfold patientDirs globStar
      rw [he, hd]
    have g0 := patientDirs_shape hnames p₀ hp0
    have hc2p0 : fs₂.pathExists (t1Path p₀) = false := by
      rw [hpe (t1Path p₀), if_pos rfl]
    have hagree : ∀ x ∈ patientDirs fs m.data_dir, x ≠ p₀ →
        (fs₂.pathExists (t1Path x) && fs₂.pathExists (segPath x)) =
        (fs.pathExists (t1Path x) && fs.pathExists (segPath x)) := by
      intro x hx hne
      have gx := patientDirs_shape hnames x hx
      have ht1 : t1Path x ≠ t1Path p₀ := fun hh =>
        hne (patFile_inj gx.1 gx.2 g0.1 g0.2 (by decide) (by decide) hh)
      have hseg : segPath x ≠ t1Path p₀ := fun hh => by
        have h2 := patFile_inj_full gx.1 gx.2 g0.1 g0.2
          (by decide) (by decide) (by decide) (by decide) hh
        exact absurd h2.2 (by decide)
      rw [hpe (t1Path x), hpe (segPath x), if_neg ht1, if_neg hseg]
    have hnotin : mkRecord p₀ ∉ dataListOf fs₂ m.data_dir := by
      rw [dataListOf_eq fs₂ m.data_dir, hpd]
      intro hmem
      rw [List.mem_map] at hmem
      obtain ⟨q, hq, hqe⟩ := hmem
      rw [List.mem_filter] at hq
      have gq := patientDirs_shape hnames q hq.1
      have hqp : q = p₀ := mkRecord_inj gq.1 gq.2 g0.1 g0.2 hqe
      subst hqp
      have hq2 := hq.2
      rw [hc2p0] at hq2
      simp at hq2
    refine ⟨?_, ?_, ?_⟩
    · rw [dataListOf_eq fs₂ m.data_dir, dataListOf_eq fs m.data_dir, hpd,
        List.length_map, List.length_map]
      exact filter_length_flip (patientDirs fs m.data_dir)
        (fun p => fs.pathExists (t1Path p) && fs.pathExists (segPath p))
        (fun p => fs₂.pathExists (t1Path p) && fs₂.pathExists (segPath p)) p₀
        (patientDirs_nodup hnd hnames) hp0
        (by show (fs.pathExists (t1Path p₀) && fs.pathExists (segPath p₀)) = true
            rw [ht0, hs0]
            rfl)
        (by show (fs₂.pathExists (t1Path p₀) && fs₂.pathExists (segPath p₀)) = false
            rw [hc2p0]
            rfl)
        hagree
    · by_cases hlen2 : 2 ≤ (dataListOf fs₂ m.data_dir).length
      · obtain ⟨tr, va, hst, -, -, hperm⟩ := setup_ok fs₂ m hlen2
        rw [hst]
        intro hmem
        exact hnotin (hperm.mem_iff.mp (List.mem_append.mpr (Or.inl hmem)))
      · have hne2 : patientDirs fs₂ m.data_dir ≠ [] := by
          rw [hpd]
          exact List.ne_nil_of_mem hp0
        rw [setup_of_few fs₂ m hne2 (by omega)]
        simp [hm1]
    · by_cases hlen2 : 2 ≤ (dataListOf fs₂ m.data_dir).length
      · obtain ⟨tr, va, hst, -, -, hperm⟩ := setup_ok fs₂ m hlen2
        rw [hst]
        intro hmem
        exact hnotin (hperm.mem_iff.mp (List.mem_append.mpr (Or.inr hmem)))
      · have hne2 : patientDirs fs₂ m.data_dir ≠ [] := by
          rw [hpd]
          exact List.ne_nil_of_mem hp0
        rw [setup_of_few fs₂ m hne2 (by omega)]
        simp [hm2]

/-- Claim C4 witness: removing the first patient's T1 file from the
two-patient root drops the record count from two to one and keeps that
patient out of both splits. -/
theorem C4_inclusion_rule_w :
    (dataListOf fsDropT1 mEx.data_dir).length + 1 =
      (dataListOf fsTwoValid mEx.data_dir).length ∧
    mkRecord (osPathJoin ("d") ("BraTS-GLI-00001")) ∉
      (BraTSDataModule.setup fsDropT1 mEx).1.train_files ∧
    mkRecord (osPathJoin ("d") ("BraTS-GLI-00001")) ∉
      (BraTSDataModule.setup fsDropT1 mEx).1.val_files :=
  C4_inclusion_rule.2.2.2 fsTwoValid fsDropT1 mEx (osPathJoin ("d") ("BraTS-GLI-00001"))
    (by decide) (by decide) rfl rfl (by decide) (by decide) (by decide)
    rfl rfl (fun _ => rfl)

end BraTS
